import Mathlib

/-!
Verification development for the `sidemail` Python SDK (`src/sidemail/client.py`).

The development shallowly embeds the data model and the algorithms of the
client: JSON values, the `Resource` envelope (`_wrap_any` / `Resource.__init__` /
`Resource.to_dict` / `Resource.raw`), the response dispatcher `_handle`, the
two pagination engines `offset_query` and `cursor_query`, the lazy iterators
`QueryResult.auto_paginate` / `auto_paginate_prev`, and the `Sidemail`
constructor.  Stateful closures are embedded as explicit state-passing
functions; every place the Python code syntactically calls the injected
`fetch_page` function, the embedding also emits a call record, so that
"without calling the fetch function" is a provable statement about the
emitted call list.
-/

/-- Parsed JSON values.  Objects are ordered key/value lists, as produced by
Python's JSON parser (a `dict`, insertion ordered). -/
inductive JValue where
  | null : JValue
  | bool : Bool → JValue
  | num : Int → JValue
  | str : String → JValue
  | arr : List JValue → JValue
  | obj : List (String × JValue) → JValue

/-- Python truthiness of a JSON value (`bool(x)`). -/
def JValue.truthy : JValue → Bool
  | .null => false
  | .bool b => b
  | .num n => n != 0
  | .str s => !s.isEmpty
  | .arr xs => !xs.isEmpty
  | .obj kvs => !kvs.isEmpty

/-- The keys of an association list (a Python `dict` viewed in insertion order). -/
def keys {β : Type} (d : List (String × β)) : List String := d.map Prod.fst

/-- Membership test `k in d` on a Python dict. -/
def hasKey {β : Type} (d : List (String × β)) (k : String) : Bool :=
  d.any (fun p => p.1 == k)

/-- Python `d[k] = v`: replace in place when the key exists, append otherwise. -/
def dictInsert {β : Type} (d : List (String × β)) (k : String) (v : β) :
    List (String × β) :=
  if hasKey d k then d.map (fun p => if p.1 == k then (k, v) else p)
  else d ++ [(k, v)]

/-- Python `dict(pairs)`: fold `d[k] = v` over the pairs, starting empty. -/
def dictOfList {β : Type} (l : List (String × β)) : List (String × β) :=
  l.foldl (fun d p => dictInsert d p.1 p.2) []

/-- Python `d.get(k)`: first entry with the key, `None` when missing
(association lists built by `dictInsert` have unique keys). -/
def dictGet {β : Type} : List (String × β) → String → Option β
  | [], _ => none
  | (k, v) :: rest, key => if k == key then some v else dictGet rest key

/-- Distinctness of a list of strings, as a boolean. -/
def strNodup : List String → Bool
  | [] => true
  | k :: r => r.all (fun x => x != k) && strNodup r

/-- Keys of an association list are pairwise distinct. -/
def nodupKeys {β : Type} (d : List (String × β)) : Bool := strNodup (keys d)

/-- Python 3 `keyword.kwlist`. -/
def kwlist : List String :=
  ["False", "None", "True", "and", "as", "assert", "async", "await",
   "break", "class", "continue", "def", "del", "elif", "else", "except",
   "finally", "for", "from", "global", "if", "import", "in", "is",
   "lambda", "nonlocal", "not", "or", "pass", "raise", "return", "try",
   "while", "with", "yield"]

/-- Python `keyword.iskeyword`. -/
def iskeyword (s : String) : Bool := kwlist.contains s

/-- First character of a Python identifier (ASCII fragment: letter or
underscore; the full rule also admits Unicode XID characters, which no key
of this API uses). -/
def isIdentStart (c : Char) : Bool := c.isAlpha || c == '_'

/-- Continuation character of a Python identifier (ASCII fragment). -/
def isIdentCont (c : Char) : Bool := c.isAlphanum || c == '_'

/-- Python `str.isidentifier` (ASCII fragment): nonempty, a start character
followed by continuation characters. -/
def isidentifier (s : String) : Bool :=
  match s.toList with
  | [] => false
  | c :: cs => isIdentStart c && cs.all isIdentCont

/-- Source `_safe_attr`:
`return f"{name}_" if (not name.isidentifier() or keyword.iskeyword(name)) else name`. -/
def safe_attr (name : String) : String :=
  if !(isidentifier name) || iskeyword name then name ++ "_" else name

/-- Wrapped values, the result of `_wrap_any`.  A `res` node is a `Resource`:
its dict entries keyed by the mangled (`_safe_attr`) names holding wrapped
values, plus the `_raw` shallow copy of the original data. -/
inductive WValue where
  | null : WValue
  | bool : Bool → WValue
  | num : Int → WValue
  | str : String → WValue
  | arr : List WValue → WValue
  | res : List (String × WValue) → List (String × JValue) → WValue

mutual
/-- Source `_wrap_any`: objects become `Resource`s, lists are wrapped
element-wise, scalars pass through. -/
def wrap_any : JValue → WValue
  | .null => .null
  | .bool b => .bool b
  | .num n => .num n
  | .str s => .str s
  | .arr xs => .arr (wrapList xs)
  | .obj kvs => .res (dictOfList (mapEntries kvs)) (dictOfList kvs)

/-- Element-wise wrapping of a list (`[_wrap_any(v) for v in value]`). -/
def wrapList : List JValue → List WValue
  | [] => []
  | x :: xs => wrap_any x :: wrapList xs

/-- Body of `Resource.__init__`'s loop: each `(k, v)` of the input becomes
`(_safe_attr(k), _wrap_any(v))`; `wrap_any` then folds these through
`dictInsert` exactly as the sequential `__setitem__` calls do. -/
def mapEntries : List (String × JValue) → List (String × WValue)
  | [] => []
  | (k, v) :: rest => (safe_attr k, wrap_any v) :: mapEntries rest
end

mutual
/-- Source `Resource.to_dict` / its inner `unwind`: a `Resource` becomes a
plain object over its own (mangled) keys, lists unwind element-wise, scalars
pass through. -/
def to_dict : WValue → JValue
  | .null => .null
  | .bool b => .bool b
  | .num n => .num n
  | .str s => .str s
  | .arr xs => .arr (toDictList xs)
  | .res entries _ => .obj (unwindEntries entries)

/-- `[unwind(x) for x in v]`. -/
def toDictList : List WValue → List JValue
  | [] => []
  | x :: xs => to_dict x :: toDictList xs

/-- `{k: unwind(v[k]) for k in v.keys()}` over a `Resource`'s own entries. -/
def unwindEntries : List (String × WValue) → List (String × JValue)
  | [] => []
  | (k, v) :: rest => (k, to_dict v) :: unwindEntries rest
end

/-- Source `Resource.raw` (the `_raw` field) of a wrapped object; `none` on a
non-`Resource` value. -/
def raw : WValue → Option (List (String × JValue))
  | .res _ r => some r
  | _ => none

/-- Entries of a wrapped object (the `Resource`'s own dict, mangled keys). -/
def entriesOf : WValue → List (String × WValue)
  | .res e _ => e
  | _ => []

mutual
/-- A JSON value all of whose object keys, recursively, are fixed by
`_safe_attr` (legal non-keyword identifiers) and pairwise distinct. -/
def safeVal : JValue → Bool
  | .null => true
  | .bool _ => true
  | .num _ => true
  | .str _ => true
  | .arr xs => safeList xs
  | .obj kvs => nodupKeys kvs && safeEntries kvs

/-- `safeVal` on every element. -/
def safeList : List JValue → Bool
  | [] => true
  | x :: xs => safeVal x && safeList xs

/-- Every key is fixed by `_safe_attr` and every value is safe. -/
def safeEntries : List (String × JValue) → Bool
  | [] => true
  | (k, v) :: rest => (safe_attr k == k) && safeVal v && safeEntries rest
end

/-! Helper lemmas about the dict model. -/

theorem hasKey_append {β : Type} (d : List (String × β)) (k k' : String) (v : β)
    (h : hasKey d k' = false) (hne : k ≠ k') :
    hasKey (d ++ [(k, v)]) k' = false := by
  simp only [hasKey, List.any_append, List.any_cons, List.any_nil,
    Bool.or_eq_false_iff] at *
  exact ⟨h, by simp [hne]⟩

theorem dictInsert_fresh {β : Type} (d : List (String × β)) (k : String) (v : β)
    (h : hasKey d k = false) : dictInsert d k v = d ++ [(k, v)] := by
  simp [dictInsert, h]

theorem foldl_dictInsert_fresh {β : Type} :
    ∀ (l acc : List (String × β)), nodupKeys l = true →
      (∀ p ∈ l, hasKey acc p.1 = false) →
      l.foldl (fun d p => dictInsert d p.1 p.2) acc = acc ++ l := by
  intro l
  induction l with
  | nil => intro acc _ _; simp
  | cons hd tl ih =>
    intro acc hnd hfresh
    obtain ⟨k, v⟩ := hd
    simp only [nodupKeys, strNodup, keys, List.map_cons, Bool.and_eq_true,
      List.all_eq_true, List.mem_map] at hnd
    have hk : hasKey acc k = false := hfresh (k, v) (List.mem_cons_self _ _)
    simp only [List.foldl_cons]
    rw [dictInsert_fresh acc k v hk]
    rw [ih (acc ++ [(k, v)]) (by simpa [nodupKeys, keys] using hnd.2)]
    · simp
    · intro p hp
      have hne : p.1 ≠ k := by
        have := hnd.1 p.1 ⟨p, hp, rfl⟩
        simpa using this
      exact hasKey_append acc k p.1 v (hfresh p (List.mem_cons_of_mem _ hp))
        (fun he => hne he.symm)

theorem dictOfList_self {β : Type} (l : List (String × β))
    (h : nodupKeys l = true) : dictOfList l = l := by
  have := foldl_dictInsert_fresh l [] h (by intro p _; simp [hasKey, keys])
  simpa [dictOfList] using this

theorem keys_mapEntries (kvs : List (String × JValue)) :
    keys (mapEntries kvs) = (keys kvs).map safe_attr := by
  induction kvs with
  | nil => simp [mapEntries, keys]
  | cons hd tl ih =>
    obtain ⟨k, v⟩ := hd
    simp only [mapEntries, keys, List.map_cons] at *
    exact congrArg (safe_attr k :: ·) ih

theorem safeEntries_keys_fixed :
    ∀ kvs : List (String × JValue), safeEntries kvs = true →
      (keys kvs).map safe_attr = keys kvs := by
  intro kvs
  induction kvs with
  | nil => intro _; simp [keys]
  | cons hd tl ih =>
    obtain ⟨k, v⟩ := hd
    intro h
    simp only [safeEntries, Bool.and_eq_true, beq_iff_eq] at h
    simp only [keys, List.map_cons] at *
    rw [h.1.1, ih h.2]

mutual
theorem roundtrip_val : ∀ v : JValue, safeVal v = true → to_dict (wrap_any v) = v
  | .null, _ => rfl
  | .bool _, _ => rfl
  | .num _, _ => rfl
  | .str _, _ => rfl
  | .arr xs, h => by
      simp only [safeVal] at h
      simp only [wrap_any, to_dict]
      rw [roundtrip_list xs h]
  | .obj kvs, h => by
      simp only [safeVal, Bool.and_eq_true] at h
      have hkeys : nodupKeys (mapEntries kvs) = true := by
        simp only [nodupKeys, keys_mapEntries, safeEntries_keys_fixed kvs h.2]
        exact h.1
      simp only [wrap_any, to_dict]
      rw [dictOfList_self _ hkeys, roundtrip_entries kvs h.2]

theorem roundtrip_list : ∀ xs : List JValue, safeList xs = true →
    toDictList (wrapList xs) = xs
  | [], _ => rfl
  | x :: xs, h => by
      simp only [safeList, Bool.and_eq_true] at h
      simp only [wrapList, toDictList]
      rw [roundtrip_val x h.1, roundtrip_list xs h.2]

theorem roundtrip_entries : ∀ kvs : List (String × JValue), safeEntries kvs = true →
    unwindEntries (mapEntries kvs) = kvs
  | [], _ => rfl
  | (k, v) :: rest, h => by
      simp only [safeEntries, Bool.and_eq_true, beq_iff_eq] at h
      simp only [mapEntries, unwindEntries]
      rw [h.1.1, roundtrip_val v h.1.2, roundtrip_entries rest h.2]
end

/-! The pagination model.  A page is the typed view of the JSON mappings the
engines consume: the item list under the configured data key, plus the
pagination metadata fields the backend documents (`total`, `hasMore`,
`hasPrev`, `paginationCursorNext`, `paginationCursorPrev`).  Every field is
optional: `none` is a missing (or `null`) key. -/

/-- One fetched page. -/
structure Page (α : Type) where
  data : Option (List α)
  total : Option Int
  nextCursor : Option String
  prevCursor : Option String
  hasMore : Option Bool
  hasPrev : Option Bool
deriving DecidableEq, Repr

/-- The empty mapping `{}` that `fetch_page(...) or {}` substitutes for a
falsy fetch result. -/
def emptyPage {α : Type} : Page α := ⟨none, none, none, none, none, none⟩

/-- Source `page.get(data_key) or []`: the item list, `[]` when the key is
missing or its value is falsy (an empty list). -/
def pageItems {α : Type} (p : Page α) : List α := p.data.getD []

/-- Captured mutable state of `offset_query`'s `fetch_next` closure: the
running offset and the item count of the last received page. -/
structure OffsetState where
  offset : Int
  received : Nat
deriving DecidableEq, Repr

/-- Source `page_size is not None and received < page_size`. -/
def psLt (page_size : Option Int) (received : Nat) : Bool :=
  match page_size with
  | none => false
  | some n => (received : Int) < n

/-- Source `bool(page_size is not None and received == page_size)`. -/
def hasMoreOf (page_size : Option Int) (received : Nat) : Bool :=
  match page_size with
  | none => false
  | some n => (received : Int) == n

/-- The uniform result object both engines produce.  The closure-captured
mutable variables of the engines are made explicit as a state value of type
`σ`; a continuation maps that state to `((page-or-absent, more-flag), new
state, fetch-call records)`, where the third component lists the arguments of
every `fetch_page` call the invocation performed (type `τ`). -/
structure QueryResult (α σ τ : Type) where
  page : Page α
  data : List α
  total : Option Int
  limit : Option Int
  offset : Option Int
  paginationCursorNext : Option String
  paginationCursorPrev : Option String
  hasMore : Bool
  hasPrev : Bool
  fetchNext : Option (σ → (Option (Page α) × Bool) × σ × List τ)
  fetchPrev : Option (σ → (Option (Page α) × Bool) × σ × List τ)
  state : σ

/-- Source `QueryResult.__init__`: stores the first page, extracts
`data` (`list(self.page.get(data_key) or [])`) and `total`, and records the
flags, cursors and continuations. -/
def queryResultInit {α σ τ : Type} (first_page : Page α)
    (fetch_next fetch_prev : Option (σ → (Option (Page α) × Bool) × σ × List τ))
    (hasMore hasPrev : Bool)
    (paginationCursorNext paginationCursorPrev : Option String)
    (offset limit : Option Int) (st : σ) : QueryResult α σ τ :=
  { page := first_page
    data := pageItems first_page
    total := first_page.total
    limit := limit
    offset := offset
    paginationCursorNext := paginationCursorNext
    paginationCursorPrev := paginationCursorPrev
    hasMore := hasMore
    hasPrev := hasPrev
    fetchNext := fetch_next
    fetchPrev := fetch_prev
    state := st }

/-- Source `offset_query`'s inner `fetch_next` closure.  Call records are
pairs `(offset, limit)` of the arguments passed to `fetch_page`. -/
def offset_fetch_next {α : Type} (fetch_page : Int → Option Int → Option (Page α))
    (page_size : Option Int) (s : OffsetState) :
    (Option (Page α) × Bool) × OffsetState × List (Int × Option Int) :=
  if psLt page_size s.received then ((none, false), s, [])
  else
    let offset := s.offset + s.received
    let page := (fetch_page offset page_size).getD emptyPage
    let received := (pageItems page).length
    ((some page, hasMoreOf page_size received), ⟨offset, received⟩,
      [(offset, page_size)])

/-- Source `offset_query`: fetch the first page at `start_offset`, compute
the initial more-forward flag, and build the `QueryResult` (no backward
continuation).  The second component is the list of `fetch_page` calls the
engine itself performed. -/
def offset_query {α : Type} (fetch_page : Int → Option Int → Option (Page α))
    (start_offset : Int) (page_size : Option Int) :
    QueryResult α OffsetState (Int × Option Int) × List (Int × Option Int) :=
  let offset := start_offset
  let first := (fetch_page offset page_size).getD emptyPage
  let received := (pageItems first).length
  let hasMore := hasMoreOf page_size received
  (queryResultInit first (some (offset_fetch_next fetch_page page_size)) none
    hasMore false none none none none ⟨offset, received⟩,
   [(offset, page_size)])

/-- Captured mutable state of `cursor_query`'s closures: the current
next/prev cursor tokens. -/
structure CursorState where
  nextCur : Option String
  prevCur : Option String
deriving DecidableEq, Repr

/-- Python falsiness of an optional string (`if not next_cur`): `None` and
the empty string are falsy. -/
def strFalsy : Option String → Bool
  | none => true
  | some s => s.isEmpty

/-- Source `bool(page.get(has_more_key)) if has_more_key else (next_cur is
not None)`; `use_field` is whether a has-more field name is configured. -/
def moreFlagOf (use_field : Bool) (field : Option Bool) (cursor : Option String) : Bool :=
  if use_field then field.getD false else cursor.isSome

/-- Source `cursor_query`'s inner `fetch_next` closure.  Call records are the
`(next_cursor, prev_cursor, limit)` triples passed to `fetch_page`. -/
def cursor_fetch_next {α : Type}
    (fetch_page : Option String → Option String → Option Int → Option (Page α))
    (page_size : Option Int) (use_has_more : Bool) (s : CursorState) :
    (Option (Page α) × Bool) × CursorState × List (Option String × Option String × Option Int) :=
  if strFalsy s.nextCur then ((none, false), s, [])
  else
    let page := (fetch_page s.nextCur none page_size).getD emptyPage
    let nextCur := page.nextCursor
    ((some page, moreFlagOf use_has_more page.hasMore nextCur),
      ⟨nextCur, s.prevCur⟩, [(s.nextCur, none, page_size)])

/-- Source `cursor_query`'s inner `fetch_prev` closure, the mirror image of
`cursor_fetch_next`. -/
def cursor_fetch_prev {α : Type}
    (fetch_page : Option String → Option String → Option Int → Option (Page α))
    (page_size : Option Int) (use_has_prev : Bool) (s : CursorState) :
    (Option (Page α) × Bool) × CursorState × List (Option String × Option String × Option Int) :=
  if strFalsy s.prevCur then ((none, false), s, [])
  else
    let page := (fetch_page none s.prevCur page_size).getD emptyPage
    let prevCur := page.prevCursor
    ((some page, moreFlagOf use_has_prev page.hasPrev prevCur),
      ⟨s.nextCur, prevCur⟩, [(none, s.prevCur, page_size)])

/-- Source `cursor_query`: fetch the first page with the starting cursors,
take the stored cursor tokens from it, compute the initial flags, and build
the `QueryResult`.  The second component is the list of `fetch_page` calls
the engine itself performed. -/
def cursor_query {α : Type}
    (fetch_page : Option String → Option String → Option Int → Option (Page α))
    (start_cursor_next start_cursor_prev : Option String) (page_size : Option Int)
    (use_has_more use_has_prev : Bool) :
    QueryResult α CursorState (Option String × Option String × Option Int) ×
      List (Option String × Option String × Option Int) :=
  let first := (fetch_page start_cursor_next start_cursor_prev page_size).getD emptyPage
  let nextCur := first.nextCursor
  let prevCur := first.prevCursor
  let hasMoreFirst := moreFlagOf use_has_more first.hasMore nextCur
  let hasPrevFirst := moreFlagOf use_has_prev first.hasPrev prevCur
  (queryResultInit first
    (some (cursor_fetch_next fetch_page page_size use_has_more))
    (some (cursor_fetch_prev fetch_page page_size use_has_prev))
    hasMoreFirst hasPrevFirst first.nextCursor first.prevCursor
    none page_size ⟨nextCur, prevCur⟩,
   [(start_cursor_next, start_cursor_prev, page_size)])

/-- The shared `while` loop of `auto_paginate` and `auto_paginate_prev`
(their bodies are textually identical up to the direction): while the flag
holds, invoke the continuation; stop on an absent page or an empty item
list, otherwise yield the page's items and continue with the updated flag.
Returns the yielded items and the number of continuation invocations;
`fuel` bounds the unrolling of the unbounded Python loop. -/
def autoLoop {α σ τ : Type} (cont : σ → (Option (Page α) × Bool) × σ × List τ) :
    Nat → Bool → σ → List α × Nat
  | 0, _, _ => ([], 0)
  | Nat.succ fuel, more, s =>
    if more then
      match cont s with
      | ((nxt, more'), s', _) =>
        match nxt with
        | none => ([], 1)
        | some page =>
          if (pageItems page).isEmpty then ([], 1)
          else
            let r := autoLoop cont fuel more' s'
            (pageItems page ++ r.1, r.2 + 1)
    else ([], 0)

/-- Source `QueryResult.auto_paginate`: yield the current page's items, then
run the loop on the forward continuation (when one exists) starting from the
current more-forward flag.  Returns the yielded items and the number of
continuation invocations. -/
def auto_paginate {α σ τ : Type} (qr : QueryResult α σ τ) (fuel : Nat) :
    List α × Nat :=
  match qr.fetchNext with
  | none => (qr.data, 0)
  | some cont =>
    let r := autoLoop cont fuel qr.hasMore qr.state
    (qr.data ++ r.1, r.2)

/-- Source `QueryResult.auto_paginate_prev`: the same loop on the backward
continuation and the has-prev flag, with no initial yield of the current
page. -/
def auto_paginate_prev {α σ τ : Type} (qr : QueryResult α σ τ) (fuel : Nat) :
    List α × Nat :=
  match qr.fetchPrev with
  | none => ([], 0)
  | some cont => autoLoop cont fuel qr.hasPrev qr.state

/-! The response dispatcher `_handle` and the error type. -/

/-- Source `SidemailError`: message plus optional HTTP status, backend error
code and more-info reference.  The message and the optional fields hold
whatever JSON value the payload carried (Python is untyped here). -/
structure SidemailError where
  message : JValue
  httpStatus : Option Int
  errorCode : Option JValue
  moreInfo : Option JValue

/-- An HTTP response as `_handle` observes it: status code, truthiness of
`resp.content`, the JSON parse of the body (`none` = parse failure), and the
raw body text. -/
structure Response where
  status_code : Int
  hasContent : Bool
  json : Option JValue
  text : String

/-- Result of `_handle`: a wrapped success value, a raw-text success, the
explicit `None` success, a raised `SidemailError`, or an uncaught
`AttributeError` (`crash`, reached when a non-2xx body parses to a JSON
value that is not an object, so that `payload.get` does not exist). -/
inductive HandleResult where
  | ok : WValue → HandleResult
  | okText : String → HandleResult
  | okNone : HandleResult
  | err : SidemailError → HandleResult
  | crash : HandleResult

/-- Python `a or b` on strings. -/
def pyOrStr (a b : String) : String := if a.isEmpty then b else a

/-- The `raise SidemailError(...)` of `_handle`:
`msg = payload.get("developerMessage") or f"HTTP {resp.status_code}"`,
`errorCode`/`moreInfo` straight from the payload. -/
def sidemailErrorOf (status : Int) (payload : List (String × JValue)) :
    SidemailError :=
  let msg : JValue :=
    match dictGet payload "developerMessage" with
    | some v => if v.truthy then v else .str ("HTTP " ++ toString status)
    | none => .str ("HTTP " ++ toString status)
  { message := msg
    httpStatus := some status
    errorCode := dictGet payload "errorCode"
    moreInfo := dictGet payload "moreInfo" }

/-- Source `_handle`. -/
def handle (resp : Response) : HandleResult :=
  if 200 ≤ resp.status_code ∧ resp.status_code < 300 then
    if resp.hasContent then
      match resp.json with
      | some parsed => .ok (wrap_any parsed)
      | none => .okText resp.text
    else .okNone
  else
    match resp.json with
    | some (.obj kvs) => .err (sidemailErrorOf resp.status_code kvs)
    | some _ => .crash
    | none =>
      .err (sidemailErrorOf resp.status_code
        [("developerMessage", .str (pyOrStr resp.text "Unknown error"))])

/-! The `Sidemail` constructor. -/

/-- Source `API_ROOT`. -/
def API_ROOT : String := "https://api.sidemail.io/v1"

/-- The per-client configuration `_Config` (the `timeout : float` field is
omitted: no claim concerns it and floats are out of scope). -/
structure SidemailConfig where
  api_key : String
  base_url : String
deriving DecidableEq, Repr

/-- Python `a or b` on optional strings (`api_key or os.getenv(...)`). -/
def pyOrOpt (a b : Option String) : Option String :=
  match a with
  | some s => if s.isEmpty then b else some s
  | none => b

/-- The configuration error raised by `Sidemail.__init__`. -/
def missingKeyError : SidemailError :=
  { message := .str "Missing API key. Pass api_key=... or set SIDEMAIL_API_KEY."
    httpStatus := none
    errorCode := none
    moreInfo := none }

/-- Source `Sidemail.__init__` key handling: `key = api_key or
os.getenv("SIDEMAIL_API_KEY")`, raise on a falsy key, otherwise build the
configuration.  `env_key` is the environment variable's value (`none` =
unset).  The constructor performs no HTTP request: the embedding is a pure
function of the two key sources (creating the `httpx.Client` opens no
connection). -/
def sidemailInit (api_key env_key : Option String) (base_url : String) :
    Except SidemailError SidemailConfig :=
  match pyOrOpt api_key env_key with
  | none => .error missingKeyError
  | some k => if k.isEmpty then .error missingKeyError else .ok ⟨k, base_url⟩

/-! Claim theorems. -/

theorem ne_append_underscore (k : String) : k ≠ k ++ "_" := by
  intro h
  have hlen := congrArg String.length h
  rw [String.length_append] at hlen
  have h1 : ("_" : String).length = 1 := rfl
  omega

/-- C1 counterexample: the round-trip is not the identity on every JSON-like
value.  `to_dict` rebuilds the object from the `Resource`'s own entries,
whose keys are the mangled names, so the reserved-word key `"class"` comes
back as `"class_"`, not as the original key. -/
theorem c1_counterexample :
    to_dict (wrap_any (JValue.obj [("class", JValue.num 1)])) ≠
      JValue.obj [("class", JValue.num 1)] := by
  intro h
  have h2 : JValue.obj [("class_", JValue.num 1)] =
      JValue.obj [("class", JValue.num 1)] := h
  simp only [JValue.obj.injEq, List.cons.injEq, Prod.mk.injEq] at h2
  exact absurd h2.1.1 (by decide)

/-- C1 (amended): for every JSON-like value all of whose object keys are,
recursively, pairwise distinct and fixed by the mangling function (legal
non-keyword identifiers), unwrapping the wrapped value reconstructs the
value exactly — keys recovered exactly, scalars unchanged, list structure
and order preserved.  (For a key that mangling changes, `to_dict` returns
the mangled key, as the counterexample shows.) -/
theorem c1_roundtrip_amended (v : JValue) (h : safeVal v = true) :
    to_dict (wrap_any v) = v :=
  roundtrip_val v h

/-- Concrete nested value for the C1 witness. -/
def c1ExampleValue : JValue :=
  .obj [("firstName", .str "Ada"), ("lastName", .str "Lovelace"),
        ("meta", .obj [("createdAt", .str "now")]),
        ("items", .arr [.obj [("id", .num 1)], .num 2, .null, .bool true])]

/-- C1 witness: the amended round-trip at a concrete nested value. -/
theorem c1_roundtrip_witness :
    safeVal c1ExampleValue = true ∧
      to_dict (wrap_any c1ExampleValue) = c1ExampleValue :=
  ⟨rfl, c1_roundtrip_amended c1ExampleValue rfl⟩

/-- C6: a key is exposed under a mangled attribute name (trailing `"_"`
appended) iff it is not a syntactically legal identifier or is a reserved
keyword; under distinct mangled keys the wrapped object's entries are keyed
exactly by the mangled names; and the raw-data accessor of a wrapped object
yields the original unmangled keys and values. -/
theorem c6_mangling_and_raw :
    (∀ k : String, safe_attr k = k ++ "_" ↔
        (isidentifier k = false ∨ iskeyword k = true)) ∧
    (∀ kvs : List (String × JValue),
        strNodup ((keys kvs).map safe_attr) = true →
        keys (entriesOf (wrap_any (.obj kvs))) = (keys kvs).map safe_attr) ∧
    (∀ kvs : List (String × JValue), nodupKeys kvs = true →
        raw (wrap_any (.obj kvs)) = some kvs) := by
  refine ⟨?_, ?_, ?_⟩
  · intro k
    by_cases hc : (!(isidentifier k) || iskeyword k) = true
    · constructor
      · intro _
        rcases Bool.or_eq_true _ _ ▸ hc with h | h
        · exact Or.inl (Bool.not_eq_true' .. ▸ h)
        · exact Or.inr h
      · intro _
        simp [safe_attr, hc]
    · constructor
      · intro h
        have hk : safe_attr k = k := by simp [safe_attr, hc]
        exact absurd (hk.symm.trans h) (ne_append_underscore k)
      · intro h
        rcases h with h | h <;> simp [h] at hc
  · intro kvs h
    have hkeys : nodupKeys (mapEntries kvs) = true := by
      simpa [nodupKeys, keys_mapEntries] using h
    show keys (dictOfList (mapEntries kvs)) = (keys kvs).map safe_attr
    rw [dictOfList_self _ hkeys, keys_mapEntries]
  · intro kvs h
    show some (dictOfList kvs) = some kvs
    rw [dictOfList_self _ h]

/-- C6 witness: the reserved word `"class"` and the non-identifier `"1abc"`
are mangled, a legal key is not, and on a concrete object the entry keys are
the mangled names while `raw` returns the original data. -/
theorem c6_mangling_witness :
    safe_attr "class" = "class" ++ "_" ∧
    safe_attr "1abc" = "1abc" ++ "_" ∧
    ¬ safe_attr "normal" = "normal" ++ "_" ∧
    keys (entriesOf (wrap_any
        (JValue.obj [("class", JValue.num 1), ("ok", JValue.bool true)]))) =
      ["class_", "ok"] ∧
    raw (wrap_any (JValue.obj [("class", JValue.num 1), ("ok", JValue.bool true)])) =
      some [("class", JValue.num 1), ("ok", JValue.bool true)] :=
  ⟨(c6_mangling_and_raw.1 "class").mpr (Or.inr rfl),
   (c6_mangling_and_raw.1 "1abc").mpr (Or.inl rfl),
   fun h => by
     rcases (c6_mangling_and_raw.1 "normal").mp h with h' | h' <;> exact absurd h' (by decide),
   Trans.trans
     (c6_mangling_and_raw.2.1 [("class", JValue.num 1), ("ok", JValue.bool true)] rfl) rfl,
   c6_mangling_and_raw.2.2 [("class", JValue.num 1), ("ok", JValue.bool true)] rfl⟩

theorem hasMoreOf_iff (ps : Option Int) (r : Nat) :
    hasMoreOf ps r = true ↔ ps = some (r : Int) := by
  cases ps with
  | none =>
    exact ⟨fun h => absurd h Bool.false_ne_true, fun h => Option.noConfusion h⟩
  | some n =>
    constructor
    · intro h
      have h' : ((r : Int) == n) = true := h
      exact congrArg some (beq_iff_eq.mp h').symm
    · intro h
      have h' : n = (r : Int) := Option.some.inj h
      show ((r : Int) == n) = true
      exact beq_iff_eq.mpr h'.symm

/-- C3: the initial more-forward flag of `offset_query` is true iff
`page_size` is set and the first page's item count equals it; the forward
continuation short-circuits to `(absent, false)` with no `fetch_page` call
when `page_size` is set and the last received count is below it; otherwise
it fetches once at the offset advanced by the last received count, with
`page_size` as the limit, and returns the new page with more-forward
recomputed as "new count equals page_size". -/
theorem c3_offset_query :
    ∀ (α : Type) (fetch_page : Int → Option Int → Option (Page α))
      (start_offset : Int) (page_size : Option Int),
      ((offset_query fetch_page start_offset page_size).1.hasMore = true ↔
        page_size = some
          ((pageItems (offset_query fetch_page start_offset page_size).1.page).length : Int)) ∧
      (∀ (s : OffsetState) (n : Int), page_size = some n → (s.received : Int) < n →
        offset_fetch_next fetch_page page_size s = ((none, false), s, [])) ∧
      (∀ s : OffsetState, psLt page_size s.received = false →
        offset_fetch_next fetch_page page_size s =
          ((some ((fetch_page (s.offset + s.received) page_size).getD emptyPage),
            hasMoreOf page_size
              (pageItems ((fetch_page (s.offset + s.received) page_size).getD emptyPage)).length),
           ⟨s.offset + s.received,
            (pageItems ((fetch_page (s.offset + s.received) page_size).getD emptyPage)).length⟩,
           [(s.offset + s.received, page_size)])) := by
  intro α fetch_page start_offset page_size
  refine ⟨?_, ?_, ?_⟩
  · simp only [offset_query, queryResultInit]
    exact hasMoreOf_iff _ _
  · intro s n hps hlt
    simp [offset_fetch_next, psLt, hps, hlt]
  · intro s hps
    simp [offset_fetch_next, hps]

/-- Concrete fetch function for the C3 witness: the page at offset `o`
contains the single item `o`. -/
def c3Fetch : Int → Option Int → Option (Page Int) :=
  fun o _ => some ⟨some [o], none, none, none, none, none⟩

/-- C3 witness: a full first page of size 1 sets more-forward; a state that
received 1 item under page size 2 short-circuits; a full state under page
size 1 advances and fetches at offset 1. -/
theorem c3_offset_query_witness :
    (offset_query c3Fetch 0 (some 1)).1.hasMore = true ∧
    offset_fetch_next c3Fetch (some 2) ⟨0, 1⟩ = ((none, false), ⟨0, 1⟩, []) ∧
    offset_fetch_next c3Fetch (some 1) ⟨0, 1⟩ =
      ((some ⟨some [1], none, none, none, none, none⟩, true), ⟨1, 1⟩, [(1, some 1)]) :=
  ⟨(c3_offset_query Int c3Fetch 0 (some 1)).1.mpr rfl,
   (c3_offset_query Int c3Fetch 0 (some 2)).2.1 ⟨0, 1⟩ 2 rfl (by decide),
   Trans.trans ((c3_offset_query Int c3Fetch 0 (some 1)).2.2 ⟨0, 1⟩ rfl) rfl⟩

/-- C4 counterexample: a stored next-cursor token that is present but empty
(`some ""`).  The token is not absent, yet the continuation returns
`(absent, false)` and performs no `fetch_page` call, instead of calling
`fetch_page` and returning the fetched page as the claim's "otherwise"
branch states. -/
theorem c4_counterexample :
    (CursorState.mk (some "") none).nextCur ≠ none ∧
    cursor_fetch_next (fun _ _ _ => some (⟨some [7], none, some "t2", none, some true, none⟩ : Page Nat))
        (some 2) true ⟨some "", none⟩ =
      ((none, false), ⟨some "", none⟩, []) ∧
    cursor_fetch_next (fun _ _ _ => some (⟨some [7], none, some "t2", none, some true, none⟩ : Page Nat))
        (some 2) true ⟨some "", none⟩ ≠
      ((some ⟨some [7], none, some "t2", none, some true, none⟩, true),
       ⟨some "t2", none⟩, [(some "", none, some 2)]) := by
  refine ⟨by simp, rfl, ?_⟩
  intro h
  have h2 : ((((none : Option (Page Nat)), false), (⟨some "", none⟩ : CursorState),
        ([] : List (Option String × Option String × Option Int))) =
      (((some (⟨some [7], none, some "t2", none, some true, none⟩ : Page Nat), true),
        (⟨some "t2", none⟩ : CursorState), [(some "", none, some 2)]))) := h
  simp at h2

/-- C4 (amended): the forward continuation short-circuits to
`(absent, false)` without calling `fetch_page` when the stored next-cursor
token is falsy — absent or the empty string; otherwise it calls `fetch_page`
with (current next cursor, no prev cursor, page_size), stores the result's
next-cursor token, and recomputes more-forward from the has-more field when
one is configured, else from next-cursor presence.  The stored token itself
is taken from the first page's next-cursor field. -/
theorem c4_cursor_fetch_next_amended :
    ∀ (α : Type) (fetch_page : Option String → Option String → Option Int → Option (Page α))
      (page_size : Option Int) (use_has_more : Bool) (s : CursorState),
      (s.nextCur = none →
        cursor_fetch_next fetch_page page_size use_has_more s = ((none, false), s, [])) ∧
      (strFalsy s.nextCur = true →
        cursor_fetch_next fetch_page page_size use_has_more s = ((none, false), s, [])) ∧
      (strFalsy s.nextCur = false →
        cursor_fetch_next fetch_page page_size use_has_more s =
          ((some ((fetch_page s.nextCur none page_size).getD emptyPage),
            moreFlagOf use_has_more
              ((fetch_page s.nextCur none page_size).getD emptyPage).hasMore
              ((fetch_page s.nextCur none page_size).getD emptyPage).nextCursor),
           ⟨((fetch_page s.nextCur none page_size).getD emptyPage).nextCursor, s.prevCur⟩,
           [(s.nextCur, none, page_size)])) ∧
      (∀ (start_cursor_next start_cursor_prev : Option String) (use_has_prev : Bool),
        ((cursor_query fetch_page start_cursor_next start_cursor_prev page_size
            use_has_more use_has_prev).1.state).nextCur =
          ((fetch_page start_cursor_next start_cursor_prev page_size).getD emptyPage).nextCursor) := by
  intro α fetch_page page_size use_has_more s
  refine ⟨?_, ?_, ?_, ?_⟩
  · intro h
    have hs : strFalsy s.nextCur = true := by rw [h]; rfl
    simp [cursor_fetch_next, hs]
  · intro h
    simp [cursor_fetch_next, h]
  · intro h
    simp [cursor_fetch_next, h]
  · intro sn sp up
    simp [cursor_query, queryResultInit]

/-- Concrete fetch function for the C4 witness: every fetch returns a page
with items `[3, 4]`, has-more false and no further cursor. -/
def c4Fetch : Option String → Option String → Option Int → Option (Page Nat) :=
  fun _ _ _ => some ⟨some [3, 4], none, none, none, some false, none⟩

/-- C4 witness: an absent token short-circuits; the token `"tok"` fetches
once and recomputes the flag from the returned page. -/
theorem c4_cursor_fetch_next_witness :
    cursor_fetch_next c4Fetch (some 2) true ⟨none, some "p"⟩ =
      ((none, false), ⟨none, some "p"⟩, []) ∧
    cursor_fetch_next c4Fetch (some 2) true ⟨some "tok", none⟩ =
      ((some ⟨some [3, 4], none, none, none, some false, none⟩, false),
       ⟨none, none⟩, [(some "tok", none, some 2)]) ∧
    ((cursor_query c4Fetch (some "start") none (some 2) true true).1.state).nextCur = none :=
  ⟨(c4_cursor_fetch_next_amended Nat c4Fetch (some 2) true ⟨none, some "p"⟩).1 rfl,
   Trans.trans
     ((c4_cursor_fetch_next_amended Nat c4Fetch (some 2) true ⟨some "tok", none⟩).2.2.1 rfl) rfl,
   Trans.trans
     ((c4_cursor_fetch_next_amended Nat c4Fetch (some 2) true ⟨none, none⟩).2.2.2
       (some "start") none true) rfl⟩

theorem autoLoop_false {α σ τ : Type} (cont : σ → (Option (Page α) × Bool) × σ × List τ)
    (fuel : Nat) (s : σ) : autoLoop cont fuel false s = ([], 0) := by
  cases fuel <;> simp [autoLoop]

/-- C5: `auto_paginate` yields the current page's items and invokes the
forward continuation zero times when the more-forward flag is false or no
continuation exists; with the flag true, one loop step stops after the
single invocation when the returned page is absent or its item list is
empty, and otherwise appends that page's items in order and continues with
the recomputed flag. -/
theorem c5_auto_paginate :
    ∀ (α σ τ : Type) (qr : QueryResult α σ τ) (fuel : Nat),
      (qr.hasMore = false → auto_paginate qr fuel = (qr.data, 0)) ∧
      (qr.fetchNext = none → auto_paginate qr fuel = (qr.data, 0)) ∧
      (∀ cont, qr.fetchNext = some cont → qr.hasMore = true →
        (∀ more' s' log, cont qr.state = ((none, more'), s', log) →
          auto_paginate qr (fuel + 1) = (qr.data, 1)) ∧
        (∀ p more' s' log, cont qr.state = ((some p, more'), s', log) →
          (pageItems p).isEmpty = true →
          auto_paginate qr (fuel + 1) = (qr.data, 1)) ∧
        (∀ p more' s' log, cont qr.state = ((some p, more'), s', log) →
          (pageItems p).isEmpty = false →
          auto_paginate qr (fuel + 1) =
            (qr.data ++ pageItems p ++ (autoLoop cont fuel more' s').1,
             (autoLoop cont fuel more' s').2 + 1))) := by
  intro α σ τ qr fuel
  refine ⟨?_, ?_, ?_⟩
  · intro h
    cases hf : qr.fetchNext with
    | none => simp [auto_paginate, hf]
    | some c => simp [auto_paginate, hf, h, autoLoop_false]
  · intro h
    simp [auto_paginate, h]
  · intro cont hf hm
    refine ⟨?_, ?_, ?_⟩
    · intro more' s' log hc
      simp [auto_paginate, hf, hm, autoLoop, hc]
    · intro p more' s' log hc hemp
      simp [auto_paginate, hf, hm, autoLoop, hc, hemp]
    · intro p more' s' log hc hemp
      simp [auto_paginate, hf, hm, autoLoop, hc, hemp]

/-- Concrete continuation for the C5 witness: always returns the full page
`[3, 4]` with has-more false. -/
def c5Cont : Nat → (Option (Page Nat) × Bool) × Nat × List Unit :=
  fun s => ((some ⟨some [3, 4], none, none, none, none, none⟩, false), s + 1, [])

/-- Concrete query result for the C5 witness: first page `[1, 2]`,
more-forward true. -/
def c5QR : QueryResult Nat Nat Unit :=
  { page := ⟨some [1, 2], none, none, none, none, none⟩
    data := [1, 2]
    total := none
    limit := none
    offset := none
    paginationCursorNext := none
    paginationCursorPrev := none
    hasMore := true
    hasPrev := false
    fetchNext := some c5Cont
    fetchPrev := none
    state := 0 }

/-- C5 witness: forward iteration yields `[1, 2] ++ [3, 4]` with one
continuation invocation; with the flag false it yields only `[1, 2]` with
zero invocations. -/
theorem c5_auto_paginate_witness :
    auto_paginate c5QR 1 = ([1, 2, 3, 4], 1) ∧
    auto_paginate { c5QR with hasMore := false } 5 = ([1, 2], 0) :=
  ⟨Trans.trans
     (((c5_auto_paginate Nat Nat Unit c5QR 0).2.2 c5Cont rfl rfl).2.2
       ⟨some [3, 4], none, none, none, none, none⟩ false 1 [] rfl rfl) rfl,
   Trans.trans ((c5_auto_paginate Nat Nat Unit { c5QR with hasMore := false } 5).1 rfl) rfl⟩

/-- C10: backward iteration never yields the first (current) page's items —
its result does not depend on them at all, it yields nothing when no
backward continuation exists, and nothing when the has-prev flag is false;
forward iteration, in contrast, yields the current page's items even when
no forward continuation exists. -/
theorem c10_auto_paginate_prev :
    ∀ (α σ τ : Type) (qr : QueryResult α σ τ) (fuel : Nat),
      (∀ d : List α, auto_paginate_prev { qr with data := d } fuel =
          auto_paginate_prev qr fuel) ∧
      (qr.fetchPrev = none → auto_paginate_prev qr fuel = ([], 0)) ∧
      (qr.hasPrev = false → auto_paginate_prev qr fuel = ([], 0)) ∧
      (qr.fetchNext = none → auto_paginate qr fuel = (qr.data, 0)) := by
  intro α σ τ qr fuel
  refine ⟨?_, ?_, ?_, ?_⟩
  · intro d
    rfl
  · intro h
    simp [auto_paginate_prev, h]
  · intro h
    cases hf : qr.fetchPrev with
    | none => simp [auto_paginate_prev, hf]
    | some c => simp [auto_paginate_prev, hf, h, autoLoop_false]
  · intro h
    simp [auto_paginate, h]

/-- Concrete backward continuation for the C10 witness: returns the page
`[9]` with has-prev false. -/
def c10Cont : Nat → (Option (Page Nat) × Bool) × Nat × List Unit :=
  fun s => ((some ⟨some [9], none, none, none, none, none⟩, false), s + 1, [])

/-- Concrete query result for the C10 witness: first page `[1, 2]`, has-prev
true, a backward continuation and no forward continuation. -/
def c10QR : QueryResult Nat Nat Unit :=
  { page := ⟨some [1, 2], none, none, none, none, none⟩
    data := [1, 2]
    total := none
    limit := none
    offset := none
    paginationCursorNext := none
    paginationCursorPrev := none
    hasMore := true
    hasPrev := true
    fetchNext := none
    fetchPrev := some c10Cont
    state := 0 }

/-- C10 witness: replacing the first page's items does not change backward
iteration, which yields only the continuation page `[9]`; forward iteration
on the same result yields the first page `[1, 2]`. -/
theorem c10_auto_paginate_prev_witness :
    auto_paginate_prev { c10QR with data := [5, 6] } 1 = auto_paginate_prev c10QR 1 ∧
    auto_paginate_prev c10QR 1 = ([9], 1) ∧
    auto_paginate c10QR 3 = ([1, 2], 0) :=
  ⟨(c10_auto_paginate_prev Nat Nat Unit c10QR 1).1 [5, 6],
   rfl,
   Trans.trans ((c10_auto_paginate_prev Nat Nat Unit c10QR 3).2.2.2 rfl) rfl⟩

/-- C7: on a 2xx response `_handle` returns the wrapped JSON parse when the
body has content and parses, the raw text as a plain string when it has
content but does not parse, and the explicit no-value result when it has no
content — a result distinct from every error and from every wrapped value,
in particular from a wrapped empty object. -/
theorem c7_handle_success :
    ∀ resp : Response, 200 ≤ resp.status_code → resp.status_code < 300 →
      ((∀ v, resp.hasContent = true → resp.json = some v →
          handle resp = .ok (wrap_any v)) ∧
       (resp.hasContent = true → resp.json = none →
          handle resp = .okText resp.text) ∧
       (resp.hasContent = false → handle resp = .okNone) ∧
       (∀ w, HandleResult.okNone ≠ HandleResult.ok w) ∧
       (∀ e, HandleResult.okNone ≠ HandleResult.err e)) := by
  intro resp h1 h2
  refine ⟨?_, ?_, ?_, ?_, ?_⟩
  · intro v hc hj
    simp [handle, h1, h2, hc, hj]
  · intro hc hj
    simp [handle, h1, h2, hc, hj]
  · intro hc
    simp [handle, h1, h2, hc]
  · intro w h
    exact HandleResult.noConfusion h
  · intro e h
    exact HandleResult.noConfusion h

/-- C7 witness: status 200 with a parsing body wraps it, status 200 with a
non-JSON body returns the raw text, status 204 with no content returns the
no-value result. -/
theorem c7_handle_success_witness :
    handle ⟨200, true, some (.obj [("ok", .bool true)]), "ignored"⟩ =
      .ok (wrap_any (.obj [("ok", .bool true)])) ∧
    handle ⟨200, true, none, "plain text"⟩ = .okText "plain text" ∧
    handle ⟨204, false, none, ""⟩ = .okNone :=
  ⟨(c7_handle_success ⟨200, true, some (.obj [("ok", .bool true)]), "ignored"⟩
      (by decide) (by decide)).1 _ rfl rfl,
   (c7_handle_success ⟨200, true, none, "plain text"⟩
      (by decide) (by decide)).2.1 rfl rfl,
   (c7_handle_success ⟨204, false, none, ""⟩ (by decide) (by decide)).2.2.1 rfl⟩

/-- C2 evaluated at the failing input and around it: a 500 response with a
JSON error payload raises a `SidemailError` carrying exactly the status, the
`developerMessage` (with the formatted-status fallback), and the optional
`errorCode`/`moreInfo` — and nothing else: the error type defined in the
source has no attribute carrying the raw payload, although the repository's
own test suite reads `err.payload` (and the claim asserts the full raw
payload is carried).  The malformed-body clauses do hold: an unparsable body
synthesizes the raw text as the message, or the fixed placeholder
`"Unknown error"` when the text is empty. -/
theorem c2_handle_error_evaluation :
    handle ⟨500, true,
        some (.obj [("developerMessage", .str "Internal error"), ("extra", .num 1)]),
        "ignored"⟩ =
      .err ⟨.str "Internal error", some 500, none, none⟩ ∧
    handle ⟨500, true, none, "Server exploded"⟩ =
      .err ⟨.str "Server exploded", some 500, none, none⟩ ∧
    handle ⟨500, true, none, ""⟩ =
      .err ⟨.str "Unknown error", some 500, none, none⟩ ∧
    handle ⟨400, true, some (.obj [("errorCode", .str "E1"), ("moreInfo", .str "u")]), ""⟩ =
      .err ⟨.str "HTTP 400", some 400, some (.str "E1"), some (.str "u")⟩ :=
  ⟨rfl, rfl, rfl, rfl⟩

/-- C8 evaluated: an authentication failure (401) and a generic API failure
(500) raise the one and only error shape — the `err` constructor around a
`SidemailError` whose sole distinguishing attribute is the numeric status —
and a 500 response whose valid JSON payload carries
`developerMessage = "X"` is indistinguishable from a 500 response whose
body is not JSON at all with raw text `"X"`: `_handle` maps both to the
identical error value. -/
theorem c8_handle_error_uniform :
    handle ⟨401, true, some (.obj [("developerMessage", .str "Nope")]), "Nope"⟩ =
      .err ⟨.str "Nope", some 401, none, none⟩ ∧
    handle ⟨500, true, some (.obj [("developerMessage", .str "X")]), "irrelevant"⟩ =
      .err ⟨.str "X", some 500, none, none⟩ ∧
    handle ⟨500, true, some (.obj [("developerMessage", .str "X")]), "irrelevant"⟩ =
      handle ⟨500, true, none, "X"⟩ :=
  ⟨rfl, rfl, rfl⟩

/-- C9: with no truthy key from either source the constructor returns the
configuration error (the embedding is a pure function of the two key
sources — no transport is consulted, so no network call can occur); a
non-empty key from either source yields a configuration carrying that key,
the explicit argument taking precedence over the environment. -/
theorem c9_sidemail_init :
    ∀ (api_key env_key : Option String) (base_url : String),
      (api_key = none → env_key = none →
        sidemailInit api_key env_key base_url = .error missingKeyError) ∧
      (strFalsy (pyOrOpt api_key env_key) = true →
        sidemailInit api_key env_key base_url = .error missingKeyError) ∧
      (∀ k, pyOrOpt api_key env_key = some k → k.isEmpty = false →
        sidemailInit api_key env_key base_url = .ok ⟨k, base_url⟩) := by
  intro api_key env_key base_url
  refine ⟨?_, ?_, ?_⟩
  · intro h1 h2
    simp [sidemailInit, pyOrOpt, h1, h2]
  · intro h
    cases hp : pyOrOpt api_key env_key with
    | none => simp [sidemailInit, hp]
    | some s =>
      have hs : s.isEmpty = true := by
        have := hp ▸ h
        simpa [strFalsy] using this
      simp [sidemailInit, hp, hs]
  · intro k hk hke
    simp [sidemailInit, hk, hke]

/-- C9 witness: no key from either source errors; an explicit key or an
environment key succeeds with that key. -/
theorem c9_sidemail_init_witness :
    sidemailInit none none API_ROOT = .error missingKeyError ∧
    sidemailInit (some "key") none API_ROOT = .ok ⟨"key", API_ROOT⟩ ∧
    sidemailInit none (some "env-key") API_ROOT = .ok ⟨"env-key", API_ROOT⟩ :=
  ⟨(c9_sidemail_init none none API_ROOT).1 rfl rfl,
   (c9_sidemail_init (some "key") none API_ROOT).2.2 "key" rfl rfl,
   (c9_sidemail_init none (some "env-key") API_ROOT).2.2 "env-key" rfl rfl⟩
